import Mathlib

/-!
Verification of the treasury asset pipeline against its specification.

Shallow embedding of the core components:
  - `src/store/src/sha256.rs` : hex rendering and parsing of SHA-256 values
  - `src/id/src/lib.rs`       : the asset id generator
  - `src/store/src/meta.rs`   : candidate-path protocol and artifact placement
  - `src/import/src/lib.rs`   : plugin result-buffer wire format, buffer negotiation
  - `src/import/src/sources.rs` : sources callback buffer negotiation
  - `src/store/src/lib.rs`    : the import engine store loop

Machine integers are modelled as `Nat` with explicit `% 2 ^ w` where the Rust
code can wrap; bytes are `Nat` values below 256; fallible operations return
`Option` (with `none` standing for a Rust panic or for fuel exhaustion of an
unbounded loop, as noted at each definition).
-/

namespace Treasury

/-! ## Hasher (src/store/src/sha256.rs)

`HashSha256` holds 32 bytes.  `impl LowerHex` (lines 47-69) walks
`bytes.chunks(16)`; each chunk has length exactly 16, so each is converted to a
`u128` with `from_be_bytes` and printed with `write!(f, "{:x}", v)` — the plain
`{:x}` format, which prints the minimal number of hex digits (one digit `0` for
zero), with no zero-padding.

`impl FromStr` (lines 104-116) takes `s.get(0..32)` (error `NotEnoughDigits`
when too short), parses it with `u128::from_str_radix(_, 16)`, advances by 32,
and repeats once; bytes come back via `to_be_bytes`.
-/

/-- A 32-byte hash value; each entry is a byte (a `Nat` below 256). -/
structure HashSha256 where
  bytes : List Nat
deriving DecidableEq

/-- `u128::from_be_bytes` on a chunk of bytes. -/
def beBytesToNat (bs : List Nat) : Nat :=
  bs.foldl (fun acc b => acc * 256 + b) 0

/-- `u128::to_be_bytes` restricted to `w` bytes, big-endian. -/
def natToBeBytes (w n : Nat) : List Nat :=
  (List.range w).map (fun i => n / 256 ^ (w - 1 - i) % 256)

/-- The `LowerHex` rendering of a hash: each 16-byte half becomes a `u128`
printed with `write!(f, "{:x}", v)`, i.e. minimal-width lowercase hex with no
zero padding (`Nat.toDigits 16` has exactly that behaviour, including a single
digit `0` for zero). -/
def lowerHex (h : HashSha256) : List Char :=
  Nat.toDigits 16 (beBytesToNat (h.bytes.take 16)) ++
    Nat.toDigits 16 (beBytesToNat ((h.bytes.drop 16).take 16))

/-- Value of one hex digit, as accepted by `u128::from_str_radix(_, 16)`. -/
def hexDigitVal (c : Char) : Option Nat :=
  if '0' ≤ c ∧ c ≤ '9' then some (c.toNat - '0'.toNat)
  else if 'a' ≤ c ∧ c ≤ 'f' then some (c.toNat - 'a'.toNat + 10)
  else if 'A' ≤ c ∧ c ≤ 'F' then some (c.toNat - 'A'.toNat + 10)
  else none

/-- `u128::from_str_radix(s, 16)`: fails on an empty string or any non-digit.
(The sign handling of `from_str_radix` is omitted: the formatter never emits a
sign, and no claim feeds it signed input.  Overflow cannot occur on at most 32
hex digits.) -/
def parseHexU128 (cs : List Char) : Option Nat :=
  match cs with
  | [] => none
  | _ =>
    cs.foldl
      (fun acc c =>
        match acc, hexDigitVal c with
        | some a, some v => some (a * 16 + v)
        | _, _ => none)
      (some 0)

/-- `impl FromStr for HashSha256`: two rounds of `s.get(0..32)` +
`from_str_radix`; characters beyond index 64 are ignored by the source. -/
def fromStr (s : List Char) : Option HashSha256 :=
  if s.length < 32 then none
  else
    match parseHexU128 (s.take 32) with
    | none => none
    | some hi =>
      let s2 := s.drop 32
      if s2.length < 32 then none
      else
        match parseHexU128 (s2.take 32) with
        | none => none
        | some lo => some ⟨natToBeBytes 16 hi ++ natToBeBytes 16 lo⟩

/-- The all-zero 256-bit hash value. -/
def zeroHash : HashSha256 := ⟨List.replicate 32 0⟩

/-! ## Asset id generator (src/id/src/lib.rs) -/

/-- Wrap-around modulus of `u64` arithmetic. -/
def U64 : Nat := 2 ^ 64

/-- `ID_MUL` (src/id/src/lib.rs line 197). -/
def ID_MUL : Nat := 0xF89A4B715E26C30D

/-- `ContextSyncData` (lines 139-142): the mutex-guarded generator state.
`new` (lines 145-156) initialises both fields to zero; `generate` never writes
`last_timestamp`. -/
structure ContextSyncData where
  counter : Nat
  lastTimestamp : Nat
deriving DecidableEq

/-- `(timestamp << 22) | (node << 12) | counter` in `u64` (line 187); the
shift of the timestamp silently discards high bits, hence the `% U64`. -/
def assembleId (timestamp node counter : Nat) : Nat :=
  ((timestamp <<< 22) % U64) ||| (node <<< 12) ||| counter

/-- `id.wrapping_mul(ID_MUL)` (line 188). -/
def scramble (id : Nat) : Nat := (id * ID_MUL) % U64

/-- Outcome of one iteration of the `loop` inside `generate` (lines 159-191). -/
inductive GenStep where
  | panicBackwards
  | panicZero
  | throttle (st : ContextSyncData)
  | ok (id : Nat) (st : ContextSyncData)
deriving DecidableEq

/-- One iteration of the `loop` in `generate`, at an observed timestamp `t`
(milliseconds since the epoch; the `duration_since(..).expect` has already
succeeded, i.e. now ≥ epoch).  `panicBackwards` is the
`panic!("Time goes backwards")` at line 169; `throttle` is the 1-ms sleep and
retry at lines 173-177; `panicZero` is the
`expect("Zero id cannot be generated")` at line 188.  Note that the source
never assigns `guard.last_timestamp`, so the returned state keeps
`st.lastTimestamp` unchanged. -/
def generateStep (node : Nat) (st : ContextSyncData) (t : Nat) : GenStep :=
  if st.lastTimestamp > t then .panicBackwards
  else if st.lastTimestamp = t then
    if st.counter = 0xFFF then .throttle st
    else if scramble (assembleId t node (st.counter + 1)) = 0 then .panicZero
    else .ok (scramble (assembleId t node (st.counter + 1)))
      ⟨st.counter + 1, st.lastTimestamp⟩
  else if scramble (assembleId t node 1) = 0 then .panicZero
  else .ok (scramble (assembleId t node 1)) ⟨1, st.lastTimestamp⟩

/-- Two consecutive `generate()` calls on a context fresh from
`AssetIdContext::new` (state `⟨0, 0⟩`), observing timestamps `t1` then `t2`;
returns the two ids when both calls succeed in one loop iteration. -/
def generateTwice (node t1 t2 : Nat) : Option (Nat × Nat) :=
  match generateStep node ⟨0, 0⟩ t1 with
  | .ok id1 st1 =>
    match generateStep node st1 t2 with
    | .ok id2 _ => some (id1, id2)
    | _ => none
  | _ => none

/-! ## Candidate-path protocol (src/store/src/meta.rs)

`with_path_candidates` (lines 453-481) runs the visitor `f` over candidate
paths under a base directory: first `hex[..len]` for
`len in PREFIX_STARTING_LEN..=hex.len()` with suffix argument `0`, then
`"<hex>:<suffix>"` for `suffix in 0..` with the full hex length as the prefix
argument.  Paths are modelled by their file names within the base directory.
The unbounded suffix loop carries fuel; `none` means fuel ran out. -/

/-- `PREFIX_STARTING_LEN` (src/store/src/meta.rs line 16). -/
def PREFIX_STARTING_LEN : Nat := 8

/-- Result of one visitor call: `Err(e)` (error payload irrelevant to the
claims), `Ok(Some(t))`, or `Ok(None)` (collision). -/
inductive FRes (T : Type) where
  | err
  | found (t : T)
  | collision
deriving DecidableEq

/-- The second loop of `with_path_candidates` (lines 469-478): suffixed names
`"<hex>:<suffix>"`, suffix counting up from the given value. -/
def wpcSuffix (f : Nat → Nat → String → FRes T) (hex : String) :
    Nat → Nat → Option (Except Unit T)
  | _, 0 => none
  | sfx, fuel + 1 =>
    match f hex.length sfx (hex ++ ":" ++ toString sfx) with
    | .found t => some (.ok t)
    | .err => some (.error ())
    | .collision => wpcSuffix f hex (sfx + 1) fuel

/-- The first loop of `with_path_candidates` (lines 458-467) over the listed
prefix lengths, falling through to the suffix loop. -/
def wpcGo (f : Nat → Nat → String → FRes T) (hex : String) :
    List Nat → Nat → Option (Except Unit T)
  | [], fuel => wpcSuffix f hex 0 fuel
  | len :: rest, fuel =>
    match f len 0 (hex.take len) with
    | .found t => some (.ok t)
    | .err => some (.error ())
    | .collision => wpcGo f hex rest fuel

/-- `with_path_candidates(hex, base, f)`: prefix lengths
`PREFIX_STARTING_LEN..=hex.len()` first, then suffixes from 0. -/
def withPathCandidates (f : Nat → Nat → String → FRes T) (hex : String)
    (fuel : Nat) : Option (Except Unit T) :=
  wpcGo f hex
    (List.range' PREFIX_STARTING_LEN (hex.length + 1 - PREFIX_STARTING_LEN)) fuel

/-- The candidate sequence as the spec states it: candidate `k` is the prefix
name `hex[..8+k]` while `8 + k ≤ hex.len()`, and after every prefix length is
exhausted the suffixed names `"<hex>:0"`, `"<hex>:1"`, … follow in order. -/
def specCandidate (hex : String) (k : Nat) : Nat × Nat × String :=
  if k < hex.length + 1 - PREFIX_STARTING_LEN then
    (PREFIX_STARTING_LEN + k, 0, hex.take (PREFIX_STARTING_LEN + k))
  else
    let s := k - (hex.length + 1 - PREFIX_STARTING_LEN)
    (hex.length, s, hex ++ ":" ++ toString s)

/-- Runs a visitor over `specCandidate hex k, specCandidate hex (k+1), …`
until it answers something other than `collision`. -/
def runCandidates (f : Nat → Nat → String → FRes T) (hex : String) :
    Nat → Nat → Option (Except Unit T)
  | _, 0 => none
  | k, fuel + 1 =>
    match f (specCandidate hex k).1 (specCandidate hex k).2.1
        (specCandidate hex k).2.2 with
    | .found t => some (.ok t)
    | .err => some (.error ())
    | .collision => runCandidates f hex (k + 1) fuel

/-! ### Artifact placement (`AssetMeta::new`, meta.rs lines 57-136) -/

/-- What `path.metadata()` finds at a candidate path: nothing, a regular file
with some content (contents abstracted to a `Nat` tag compared for equality,
as `files_eq` compares byte-for-byte), or a non-file entity. -/
inductive Entry where
  | file (content : Nat)
  | other
deriving DecidableEq

/-- The fields of the `AssetMeta` built by `AssetMeta::new` that govern
placement, plus the candidate path the output file actually ended up at
(the `artifact_path` recorded in the `RefCell` at creation). -/
structure AssetMetaRec where
  plen : Nat
  sfix : Nat
  placed : String
deriving DecidableEq

/-- The visitor closure inside `AssetMeta::new` (lines 75-135): a missing
candidate is occupied by renaming the output there; an existing file equal to
the output deduplicates (same record); unequal file or non-file entity is a
collision. -/
def assetMetaNewVisitor (dir : String → Option Entry) (output : Nat) :
    Nat → Nat → String → FRes AssetMetaRec :=
  fun plen sfix path =>
    match dir path with
    | none => .found ⟨plen, sfix, path⟩
    | some (.file c) => if c = output then .found ⟨plen, sfix, path⟩ else .collision
    | some .other => .collision

/-- `AssetMeta::new` restricted to its placement behaviour: run the visitor
through `with_path_candidates` over the hex of the output's hash. -/
def assetMetaNew (dir : String → Option Entry) (output : Nat) (hex : String)
    (fuel : Nat) : Option (Except Unit AssetMetaRec) :=
  withPathCandidates (assetMetaNewVisitor dir output) hex fuel

/-- `AssetMeta::make_artifact_path` (lines 161-169): `hex[..prefix]` when the
stored suffix is zero, `"<hex[..prefix]>:<suffix>"` otherwise. -/
def makeArtifactPath (hex : String) (plen sfix : Nat) : String :=
  if sfix = 0 then hex.take plen else hex.take plen ++ ":" ++ toString sfix

/-- An empty artifacts directory. -/
def emptyDir : String → Option Entry := fun _ => none

/-- A directory holding exactly one entry. -/
def singleDir (k : String) (e : Entry) : String → Option Entry :=
  fun s => if s = k then some e else none

/-- A 64-digit hex string, as produced for a SHA-256 artifact hash. -/
def hex64 : String :=
  "0123456789abcdef0123456789abcdef0123456789abcdef0123456789abcdef"

/-- A directory state in which every un-suffixed candidate (every name of at
most 64 characters) is occupied by a file whose content differs from the new
output: every prefix candidate collides and the first free candidate is the
suffixed name `hex64 ++ ":0"`. -/
def occupiedShortDir : String → Option Entry :=
  fun s => if s.length ≤ 64 then some (.file 0) else none

/-! ## Plugin result-buffer wire format (src/import/src/lib.rs)

The plugin side (`importer_import_ffi`, lines 131-287) serialises a
`RequireSources` list into the caller's result buffer: the count as a
little-endian `u32` (`to_le_bytes`), then for each string its length as a
little-endian `u32` followed by its bytes.  The host side
(`ImporterFFI::import`, lines 439-663) decodes the buffer: the count with
`u32::from_le_bytes` — but each string length with `u32::from_be_bytes`
(lines 530, 569, 594, 624), and the running offset is advanced only past each
4-byte length field, never past the string bytes themselves.  Bytes are `Nat`
values below 256; strings are modelled by their UTF-8 byte lists. -/

/-- `RESULT_BUF_LEN_START` (src/import/src/lib.rs line 64). -/
def RESULT_BUF_LEN_START : Nat := 1024

/-- `PATH_BUF_LEN_START` (line 65). -/
def PATH_BUF_LEN_START : Nat := 1024

/-- `ANY_BUF_LEN_LIMIT` (line 66). -/
def ANY_BUF_LEN_LIMIT : Nat := 65536

/-- `u32::to_le_bytes`. -/
def u32le (n : Nat) : List Nat :=
  [n % 256, n / 2 ^ 8 % 256, n / 2 ^ 16 % 256, n / 2 ^ 24 % 256]

/-- `u32::from_le_bytes` on a 4-byte chunk. -/
def fromLe4 (bs : List Nat) : Nat :=
  bs.getD 0 0 + bs.getD 1 0 * 2 ^ 8 + bs.getD 2 0 * 2 ^ 16 + bs.getD 3 0 * 2 ^ 24

/-- `u32::from_be_bytes` on a 4-byte chunk. -/
def fromBe4 (bs : List Nat) : Nat :=
  bs.getD 0 0 * 2 ^ 24 + bs.getD 1 0 * 2 ^ 16 + bs.getD 2 0 * 2 ^ 8 + bs.getD 3 0

/-- A slice `buf[off..][..n]`; `none` models the out-of-bounds panic. -/
def readBytes (buf : List Nat) (off n : Nat) : Option (List Nat) :=
  if off + n ≤ buf.length then some ((buf.drop off).take n) else none

/-- `len_required` computed by the plugin for a `RequireSources` list
(lines 176-179): `fold(0, |acc, p| acc + p.len() + 4) + 4`. -/
def sourcesLenRequired (srcs : List (List Nat)) : Nat :=
  (srcs.foldl (fun acc u => acc + u.length + 4) 0) + 4

/-- The bytes the plugin writes for a `RequireSources` list (lines 188-216):
little-endian count, then per string a little-endian length and the bytes. -/
def encodeSourcesPayload (srcs : List (List Nat)) : List Nat :=
  u32le srcs.length ++ (srcs.map (fun u => u32le u.length ++ u)).flatten

/-- The host's result buffer after the plugin wrote `payload` into a
`vec![0; cap]` of capacity `cap`: the payload followed by the untouched
zero bytes. -/
def hostBuffer (payload : List Nat) (cap : Nat) : List Nat :=
  payload ++ List.replicate (cap - payload.length) 0

/-- The host's `REQUIRE_SOURCES` decode loop (lines 523-544): reads a 4-byte
length with `u32::from_be_bytes`, then slices that many bytes; the offset is
advanced by 4 only — the source never adds the string length to it. -/
def decodeSourcesLoop (buf : List Nat) : Nat → Nat → Option (List (List Nat))
  | _, 0 => some []
  | off, k + 1 =>
    match readBytes buf off 4 with
    | none => none
    | some lb =>
      match readBytes buf (off + 4) (fromBe4 lb) with
      | none => none
      | some sb =>
        match decodeSourcesLoop buf (off + 4) k with
        | none => none
        | some rest => some (sb :: rest)

/-- The host's `REQUIRE_SOURCES` decode (lines 511-547): little-endian count,
then the loop. -/
def decodeSources (buf : List Nat) : Option (List (List Nat)) :=
  match readBytes buf 0 4 with
  | none => none
  | some cb => decodeSourcesLoop buf 4 (fromLe4 cb)

/-! ## Buffer-size negotiation (src/import/src/lib.rs lines 478-507,
src/import/src/sources.rs lines 103-124) -/

/-- The abort reported when a `BUFFER_TOO_SMALL` reply exceeds the limit;
the two fields are the values interpolated into the source's
`format!` message — the limit and the required size. -/
inductive NegotiationErr where
  | tooBig (limit required : Nat)
deriving DecidableEq

/-- The retry loop of `ImporterFFI::import` (lines 478-507): call the callee
with the current buffer length; on return code `BUFFER_IS_TOO_SMALL` (−3)
abort when the reported requirement exceeds `ANY_BUF_LEN_LIMIT`
("Result does not fit into limit …"), otherwise resize and retry.  The second
component counts callee invocations; `none` is fuel exhaustion. -/
def importerNegotiation (callee : Nat → Int × Nat) :
    Nat → Nat → Nat → Option (Except NegotiationErr (Int × Nat) × Nat)
  | _, _, 0 => none
  | len, calls, fuel + 1 =>
    match callee len with
    | (code, len2) =>
      if code = -3 then
        if len2 > ANY_BUF_LEN_LIMIT then
          some (.error (.tooBig ANY_BUF_LEN_LIMIT len2), calls + 1)
        else importerNegotiation callee len2 (calls + 1) fuel
      else some (.ok (code, len2), calls + 1)

/-- The retry loop of `SourcesFFI::get` (src/import/src/sources.rs lines
103-124), identical in structure ("Source path does not fit into limit …"). -/
def sourcesGetNegotiation (callee : Nat → Int × Nat) :
    Nat → Nat → Nat → Option (Except NegotiationErr (Int × Nat) × Nat)
  | _, _, 0 => none
  | len, calls, fuel + 1 =>
    match callee len with
    | (code, len2) =>
      if code = -3 then
        if len2 > ANY_BUF_LEN_LIMIT then
          some (.error (.tooBig ANY_BUF_LEN_LIMIT len2), calls + 1)
        else sourcesGetNegotiation callee len2 (calls + 1) fuel
      else some (.ok (code, len2), calls + 1)

/-- A callee following the protocol of `importer_import_ffi` and
`sources_get_ffi`: given a buffer of `len` bytes it reports
`BUFFER_IS_TOO_SMALL` with the required size while `len < req`, and
otherwise writes and returns `code` (setting the length to the written
size). -/
def sizedCallee (req : Nat) (code : Int) : Nat → Int × Nat :=
  fun len => if len < req then (-3, req) else (code, req)

/-- Result of a whole `generate()` call: a fatal panic, or a returned id with
the post-call state. -/
inductive CallRes where
  | panic
  | okR (id : Nat) (st : ContextSyncData)
deriving DecidableEq

/-- A full `generate()` call: the `loop` keeps reading fresh timestamps (the
successive entries of `ts`) as long as it throttles; `none` means the supplied
observations ran out while throttling. -/
def generateCall (node : Nat) (st : ContextSyncData) : List Nat → Option CallRes
  | [] => none
  | t :: ts =>
    match generateStep node st t with
    | .panicBackwards => some .panic
    | .panicZero => some .panic
    | .throttle st2 => generateCall node st2 ts
    | .ok id st2 => some (.okR id st2)

/-- The states a generator can actually be in: the fresh state made by
`AssetIdContext::new`, and anything reached from it by loop iterations. -/
inductive Reachable : ContextSyncData → Prop where
  | init : Reachable ⟨0, 0⟩
  | stepOk {node t id : Nat} {st st2 : ContextSyncData} :
      Reachable st → generateStep node st t = .ok id st2 → Reachable st2
  | stepThrottle {node t : Nat} {st st2 : ContextSyncData} :
      Reachable st → generateStep node st t = .throttle st2 → Reachable st2

/-! ## Helper lemmas -/

theorem lor_ne_zero_right (x c : Nat) (hc : c ≠ 0) : x ||| c ≠ 0 := by
  intro h
  apply hc
  apply Nat.eq_of_testBit_eq
  intro i
  have hi := congrArg (fun v => Nat.testBit v i) h
  simp only [Nat.testBit_lor, Nat.zero_testBit, Bool.or_eq_false_iff] at hi
  simp [hi.2, Nat.zero_testBit]

theorem coprime_U64_ID_MUL : Nat.Coprime U64 ID_MUL := by
  have h2 : Nat.Coprime 2 ID_MUL := by decide
  exact Nat.Coprime.pow_left 64 h2

theorem scramble_ne_zero (a : Nat) (ha : a < U64) (h0 : a ≠ 0) : scramble a ≠ 0 := by
  intro h
  apply h0
  have hdvd : U64 ∣ a * ID_MUL := Nat.dvd_of_mod_eq_zero h
  have hda : U64 ∣ a := Nat.Coprime.dvd_of_dvd_mul_right coprime_U64_ID_MUL hdvd
  exact Nat.eq_zero_of_dvd_of_lt hda ha

theorem assembleId_lt (t node c : Nat) (hnode : node ≤ 0x3FF) (hc : c ≤ 0x1000) :
    assembleId t node c < U64 := by
  have h1 : (t <<< 22) % U64 < U64 := Nat.mod_lt _ (by norm_num [U64])
  have h2 : node <<< 12 < U64 := by
    rw [Nat.shiftLeft_eq]
    calc node * 2 ^ 12 ≤ 0x3FF * 2 ^ 12 := Nat.mul_le_mul_right _ hnode
    _ < U64 := by norm_num [U64]
  have h3 : c < U64 := by
    calc c ≤ 0x1000 := hc
    _ < U64 := by norm_num [U64]
  exact Nat.bitwise_lt (Nat.bitwise_lt h1 h2) h3

theorem scrambled_id_ne_zero (t node c : Nat) (hnode : node ≤ 0x3FF)
    (hc : c ≤ 0x1000) (hc0 : c ≠ 0) : scramble (assembleId t node c) ≠ 0 :=
  scramble_ne_zero _ (assembleId_lt t node c hnode hc) (lor_ne_zero_right _ _ hc0)

theorem generateStep_no_zero (node : Nat) (st : ContextSyncData) (t : Nat)
    (hnode : node ≤ 0x3FF) (hc : st.counter ≤ 0xFFF) :
    generateStep node st t ≠ .panicZero := by
  unfold generateStep
  split
  · simp
  · split
    · split
      · simp
      · have hne := scrambled_id_ne_zero t node (st.counter + 1) hnode (by omega) (by omega)
        simp [hne]
    · have hne := scrambled_id_ne_zero t node 1 hnode (by omega) (by omega)
      simp [hne]

theorem generateStep_ok_inv (node : Nat) (st : ContextSyncData) (t id : Nat)
    (st2 : ContextSyncData) (hc : st.counter ≤ 0xFFF)
    (h : generateStep node st t = .ok id st2) :
    st2.lastTimestamp = st.lastTimestamp ∧ st2.counter ≤ 0xFFF ∧ 1 ≤ st2.counter := by
  unfold generateStep at h
  split at h
  · simp at h
  · split at h
    · split at h
      · simp at h
      · split at h
        · simp at h
        · rename_i hcnt _
          injection h with h1 h2
          subst h2
          exact ⟨rfl, by simp; omega, by simp⟩
    · split at h
      · simp at h
      · injection h with h1 h2
        subst h2
        exact ⟨rfl, by simp, by simp⟩

theorem generateStep_throttle_inv (node : Nat) (st : ContextSyncData) (t : Nat)
    (st2 : ContextSyncData) (h : generateStep node st t = .throttle st2) :
    st2 = st ∧ st.lastTimestamp = t ∧ st.counter = 0xFFF := by
  unfold generateStep at h
  split at h
  · simp at h
  · split at h
    · split at h
      · rename_i heq hcnt
        injection h with h1
        exact ⟨h1.symm, heq, hcnt⟩
      · split at h <;> simp at h
    · split at h <;> simp at h

theorem generateStep_no_backwards (node : Nat) (st : ContextSyncData) (t : Nat)
    (h0 : st.lastTimestamp = 0) : generateStep node st t ≠ .panicBackwards := by
  unfold generateStep
  split
  · omega
  · split
    · split
      · simp
      · split <;> simp
    · split <;> simp

theorem generateStep_returns (node : Nat) (st : ContextSyncData) (t : Nat)
    (h0 : st.lastTimestamp = 0) (hnode : node ≤ 0x3FF) (hc : st.counter ≤ 0xFFF)
    (hcond : t ≠ 0 ∨ st.counter ≠ 0xFFF) :
    ∃ id st2, generateStep node st t = .ok id st2 := by
  unfold generateStep
  split
  · omega
  · split
    · rename_i hne heq
      have hcnt : st.counter ≠ 0xFFF := by
        rcases hcond with h | h
        · omega
        · exact h
      simp only [hcnt, if_false]
      have hne2 := scrambled_id_ne_zero t node (st.counter + 1) hnode (by omega) (by omega)
      simp only [hne2, if_false]
      exact ⟨_, _, rfl⟩
    · have hne2 := scrambled_id_ne_zero t node 1 hnode (by omega) (by omega)
      simp only [hne2, if_false]
      exact ⟨_, _, rfl⟩

theorem generateStep_ok_id_ne_zero (node : Nat) (st : ContextSyncData) (t id : Nat)
    (st2 : ContextSyncData) (h : generateStep node st t = .ok id st2) : id ≠ 0 := by
  unfold generateStep at h
  split at h
  · simp at h
  · split at h
    · split at h
      · simp at h
      · split at h
        · simp at h
        · rename_i hz
          injection h with h1 h2
          subst h1
          exact hz
    · split at h
      · simp at h
      · rename_i hz
        injection h with h1 h2
        subst h1
        exact hz

theorem reachable_inv {st : ContextSyncData} (h : Reachable st) :
    st.lastTimestamp = 0 ∧ st.counter ≤ 0xFFF := by
  induction h with
  | init => exact ⟨rfl, by norm_num⟩
  | stepOk hr hstep ih =>
    have := generateStep_ok_inv _ _ _ _ _ ih.2 hstep
    exact ⟨this.1.trans ih.1, this.2.1⟩
  | stepThrottle hr hstep ih =>
    have := generateStep_throttle_inv _ _ _ _ hstep
    rw [this.1]
    exact ih

theorem generateCall_no_panic (node : Nat) (hnode : node ≤ 0x3FF) :
    ∀ (ts : List Nat) (st : ContextSyncData), Reachable st →
      generateCall node st ts ≠ some .panic := by
  intro ts
  induction ts with
  | nil => intro st hr; simp [generateCall]
  | cons t ts ih =>
    intro st hr
    have hinv := reachable_inv hr
    simp only [generateCall]
    have hnb := generateStep_no_backwards node st t hinv.1
    have hnz := generateStep_no_zero node st t hnode hinv.2
    match hstep : generateStep node st t with
    | .panicBackwards => exact absurd hstep hnb
    | .panicZero => exact absurd hstep hnz
    | .throttle st2 => exact ih st2 (Reachable.stepThrottle hr hstep)
    | .ok id st2 => simp

theorem generateCall_returns (node : Nat) (hnode : node ≤ 0x3FF) :
    ∀ (ts : List Nat) (st : ContextSyncData), Reachable st →
      (∃ t ∈ ts, t ≠ 0 ∨ st.counter ≠ 0xFFF) →
      ∃ id st2, generateCall node st ts = some (.okR id st2) := by
  intro ts
  induction ts with
  | nil => intro st hr hex; simp at hex
  | cons t ts ih =>
    intro st hr hex
    have hinv := reachable_inv hr
    simp only [generateCall]
    by_cases hcond : t ≠ 0 ∨ st.counter ≠ 0xFFF
    · obtain ⟨id, st2, hstep⟩ := generateStep_returns node st t hinv.1 hnode hinv.2 hcond
      rw [hstep]
      exact ⟨id, st2, rfl⟩
    · push_neg at hcond
      obtain ⟨ht0, hcnt⟩ := hcond
      subst ht0
      have hstep : generateStep node st 0 = .throttle st := by
        unfold generateStep
        rw [if_neg (by omega), if_pos hinv.1, if_pos hcnt]
      rw [hstep]
      apply ih st hr
      obtain ⟨t2, ht2mem, ht2⟩ := hex
      rcases List.mem_cons.mp ht2mem with heq | hmem
      · subst heq
        rcases ht2 with h | h
        · exact absurd rfl h
        · exact absurd hcnt h
      · exact ⟨t2, hmem, ht2⟩

theorem wpcSuffix_eq_run (f : Nat → Nat → String → FRes T) (hex : String) :
    ∀ (fuel sfx : Nat),
      wpcSuffix f hex sfx fuel
        = runCandidates f hex ((hex.length + 1 - PREFIX_STARTING_LEN) + sfx) fuel := by
  intro fuel
  induction fuel with
  | zero => intro sfx; rfl
  | succ fuel ih =>
    intro sfx
    have hnot : ¬ ((hex.length + 1 - PREFIX_STARTING_LEN) + sfx
        < hex.length + 1 - PREFIX_STARTING_LEN) := by omega
    have hs : (hex.length + 1 - PREFIX_STARTING_LEN) + sfx
        - (hex.length + 1 - PREFIX_STARTING_LEN) = sfx := by omega
    simp only [wpcSuffix, runCandidates, specCandidate, hnot, if_false, hs]
    split
    · rfl
    · rfl
    · exact ih (sfx + 1)

theorem wpcGo_eq_run (f : Nat → Nat → String → FRes T) (hex : String) :
    ∀ (n j fuel : Nat), j + n = hex.length + 1 - PREFIX_STARTING_LEN →
      wpcGo f hex (List.range' (PREFIX_STARTING_LEN + j) n) fuel
        = runCandidates f hex j (n + fuel) := by
  intro n
  induction n with
  | zero =>
    intro j fuel hj
    have hj2 : j = hex.length + 1 - PREFIX_STARTING_LEN := by omega
    rw [hj2]
    have := wpcSuffix_eq_run f hex fuel 0
    simpa [wpcGo, List.range'] using this
  | succ n ih =>
    intro j fuel hj
    rw [List.range'_succ]
    have hlt : j < hex.length + 1 - PREFIX_STARTING_LEN := by omega
    have harith : n + 1 + fuel = (n + fuel) + 1 := by omega
    simp only [wpcGo, harith, runCandidates, specCandidate, hlt, if_true]
    split
    · rfl
    · rfl
    · have := ih (j + 1) fuel (by omega)
      simpa [Nat.add_assoc] using this

theorem wpc_eq_run (f : Nat → Nat → String → FRes T) (hex : String) (fuel : Nat) :
    withPathCandidates f hex fuel
      = runCandidates f hex 0 ((hex.length + 1 - PREFIX_STARTING_LEN) + fuel) := by
  have := wpcGo_eq_run f hex (hex.length + 1 - PREFIX_STARTING_LEN) 0 fuel (by omega)
  simpa [withPathCandidates, Nat.add_comm] using this

theorem second_output_takes_9 (h1 h2 : String) (c1 c2 : Nat)
    (hl1 : 8 ≤ h1.length) (hl2 : 9 ≤ h2.length)
    (hcoll : h2.take 8 = h1.take 8) (hne : h2.take 9 ≠ h1.take 8)
    (hc : c1 ≠ c2) (fuel1 fuel2 : Nat) :
    assetMetaNew emptyDir c1 h1 fuel1 = some (.ok ⟨8, 0, h1.take 8⟩)
    ∧ assetMetaNew (singleDir (h1.take 8) (.file c1)) c2 h2 fuel2
        = some (.ok ⟨9, 0, h2.take 9⟩) := by
  constructor
  · have hcount : h1.length + 1 - PREFIX_STARTING_LEN = (h1.length - 8) + 1 := by
      simp only [PREFIX_STARTING_LEN]; omega
    rw [assetMetaNew, withPathCandidates, hcount, List.range'_succ]
    simp [wpcGo, assetMetaNewVisitor, emptyDir, PREFIX_STARTING_LEN]
  · have hcount : h2.length + 1 - PREFIX_STARTING_LEN = (h2.length - 9) + 1 + 1 := by
      simp only [PREFIX_STARTING_LEN]; omega
    rw [assetMetaNew, withPathCandidates, hcount, List.range'_succ, List.range'_succ]
    simp only [PREFIX_STARTING_LEN]
    simp only [wpcGo, assetMetaNewVisitor, singleDir, hcoll, if_pos rfl]
    have h89 : (8 : Nat) + 1 = 9 := rfl
    simp [hc, h89, hne]

/-! ## The import engine store loop (src/store/src/lib.rs)

`Treasury::store` (lines 200-462) drives a LIFO stack of items.  Each
iteration increments the top item's attempt counter, consults the source
meta, early-exits on a fresh asset, otherwise resolves an importer and
invokes it, dispatching on the result exactly as the source does.

The parts of the `SourceMeta` API this version of `store` calls
(`get_asset(target)`, `add_asset(target, asset, ..)` and
`AssetMeta::needs_reimport`) are not present under `src/` — the `meta.rs` in
the snapshot is an older revision with a different signature — so those
pieces are modelled from the spec:

  - Modelled from the spec: the per-source meta is "a mapping from
    target-format name to asset meta" keyed by source URL, "rewritten in
    full on each asset addition" (`metaLookup` / `metaInsert`).
  - Modelled from the spec: `needs_reimport` ("flagged as stale (by recorded
    source modification times diverging from current ones)") is an
    environment predicate `stale` over (source, target).

File-system effects (source fetching, temp outputs, artifact placement,
meta persistence) are abstracted: the claims settled against this model
(C4, C6) concern id stability, importer invocation counts and the attempt
bound, none of which depend on them.  The environment supplies URL joining
(the external `url` crate), importer resolution and importer behaviour (which
may vary with the attempt number, as a real importer may answer each
invocation differently). -/

/-- `MAX_ITEM_ATTEMPTS` (src/store/src/lib.rs line 30). -/
def MAX_ITEM_ATTEMPTS : Nat := 1024

/-- A `StackItem` (lines 223-242), restricted to the fields the control flow
reads: source URL, format hint, target, attempt counter. -/
structure StoreItem where
  source : String
  format : Option String
  target : String
  attempt : Nat
deriving DecidableEq

/-- The importer outcome as dispatched at lines 335-407. -/
inductive ImpResult where
  | ok
  | errOther (reason : String)
  | requireSources (srcs : List String)
  | requireDependencies (deps : List (String × String))
deriving DecidableEq

/-- Modelled from the spec: the persisted source metas, as a finite map from
(source URL, target) to the recorded asset id. -/
abbrev MetaMap := List ((String × String) × Nat)

/-- Modelled from the spec: `SourceMeta::new(..).get_asset(target)` — the
asset recorded for a (source, target) pair, if any. -/
def metaLookup (m : MetaMap) (s t : String) : Option Nat :=
  (m.find? (fun e => e.1.1 == s && e.1.2 == t)).map (fun e => e.2)

/-- Modelled from the spec: `meta.add_asset(target, asset, ..)` — record an
asset id for a (source, target) pair. -/
def metaInsert (m : MetaMap) (s t : String) (id : Nat) : MetaMap :=
  ((s, t), id) :: m

/-- The collaborators `store` consults: `Url::join` (external crate),
importer resolution (`importers.guess` / `importers.get`, lines 287-299),
importer behaviour by (source, target, attempt), and the spec-modelled
staleness predicate `needs_reimport`. -/
structure StoreEnv where
  join : String → String → Option String
  hasImporter : Option String → String → Bool
  importer : String → String → Nat → ImpResult
  stale : String → String → Bool

/-- The ways `store` returns an error in the modelled iteration: no importer
found (lines 292-299), an importer `Other` error (lines 337-345), attempts
exhausted (lines 347-354 and 373-380), a URL join failure (lines 358-366 and
384-392). -/
inductive StoreErr where
  | noImporter
  | other (reason : String)
  | tooManyAttempts
  | joinFail
deriving DecidableEq

/-- Outcome of `store`: the returned asset id, or an error. -/
inductive StoreOutcome where
  | ok (id : Nat)
  | fail (e : StoreErr)
deriving DecidableEq

/-- Joining each requested URL against the item's source, failing on the
first join error, as the `for` loops at lines 357-369 and 383-404 do. -/
def joinAll (join : String → String → Option String) (b : String) :
    List String → Option (List String)
  | [] => some []
  | s :: rest =>
    match join b s with
    | none => none
    | some u =>
      match joinAll join b rest with
      | none => none
      | some us => some (u :: us)

/-- What one import phase decides: return from `store` with a result, or go
around the loop again with updated state. -/
inductive StepDir where
  | ret (r : StoreOutcome × MetaMap × Nat)
  | recurse (nextId inv : Nat) (meta : MetaMap) (stack : List StoreItem)
deriving DecidableEq

/-- The import phase of one loop iteration (lines 287-461), for the top item
with its attempt already incremented (`item.attempt + 1`): resolve the
importer, invoke it (counting the invocation), then dispatch: `Ok` places the
artifact, generates the fresh id `nextId`, records the asset and pops the
item (returning when the stack empties); `Other` fails; `RequireSources`
fails once `attempt ≥ MAX_ITEM_ATTEMPTS`, else joins and fetches each URL and
retries the item; `RequireDependencies` fails on the same bound, else pushes
one new item per pair (source joined, no format hint, attempt 0) — pushed in
order, so the last pair ends nearest the top — and continues. -/
def storeImportStep (env : StoreEnv) (nextId inv : Nat) (meta : MetaMap)
    (item : StoreItem) (rest : List StoreItem) : StepDir :=
  if env.hasImporter item.format item.target then
    match env.importer item.source item.target (item.attempt + 1) with
    | .ok =>
      match rest with
      | [] =>
        .ret (.ok nextId, metaInsert meta item.source item.target nextId, inv + 1)
      | _ :: _ =>
        .recurse (nextId + 1) (inv + 1)
          (metaInsert meta item.source item.target nextId) rest
    | .errOther r => .ret (.fail (.other r), meta, inv + 1)
    | .requireSources srcs =>
      if MAX_ITEM_ATTEMPTS ≤ item.attempt + 1 then
        .ret (.fail .tooManyAttempts, meta, inv + 1)
      else
        match joinAll env.join item.source srcs with
        | none => .ret (.fail .joinFail, meta, inv + 1)
        | some _ =>
          .recurse nextId (inv + 1) meta
            ({ item with attempt := item.attempt + 1 } :: rest)
    | .requireDependencies deps =>
      if MAX_ITEM_ATTEMPTS ≤ item.attempt + 1 then
        .ret (.fail .tooManyAttempts, meta, inv + 1)
      else
        match joinAll env.join item.source (deps.map Prod.fst) with
        | none => .ret (.fail .joinFail, meta, inv + 1)
        | some urls =>
          .recurse nextId (inv + 1) meta
            (((urls.zip (deps.map Prod.snd)).map
                (fun p => StoreItem.mk p.1 none p.2 0)).reverse
              ++ { item with attempt := item.attempt + 1 } :: rest)
  else .ret (.fail .noImporter, meta, inv)

/-- The `loop` of `Treasury::store` (lines 254-461).  State: the next fresh
asset id (`generate()` modelled as a counter — C5/C9 treat the generator
itself), the number of importer invocations so far, the meta map, and the
stack.  Each iteration: take the top item (the stack is never empty when
entered from `store`), increment its attempt, look up the recorded asset;
a hit that is not stale pops the item (lines 263-285), returning it when the
stack empties; otherwise run the import phase.  `none` is fuel exhaustion. -/
def storeLoop (env : StoreEnv) : Nat → Nat → Nat → MetaMap → List StoreItem →
    Option (StoreOutcome × MetaMap × Nat)
  | 0, _, _, _, _ => none
  | fuel + 1, nextId, inv, meta, stack =>
    match stack with
    | [] => none
    | item :: rest =>
      match metaLookup meta item.source item.target with
      | some id =>
        if env.stale item.source item.target then
          match storeImportStep env nextId inv meta item rest with
          | .ret r => some r
          | .recurse n2 i2 m2 s2 => storeLoop env fuel n2 i2 m2 s2
        else
          match rest with
          | [] => some (.ok id, meta, inv)
          | r0 :: rs => storeLoop env fuel nextId inv meta (r0 :: rs)
      | none =>
        match storeImportStep env nextId inv meta item rest with
        | .ret r => some r
        | .recurse n2 i2 m2 s2 => storeLoop env fuel n2 i2 m2 s2

theorem metaLookup_insert (m : MetaMap) (s t : String) (id : Nat) :
    metaLookup (metaInsert m s t id) s t = some id := by
  simp [metaLookup, metaInsert, List.find?]

theorem storeImportStep_ret_cases (env : StoreEnv) (nextId inv : Nat)
    (meta : MetaMap) (item : StoreItem) (rest : List StoreItem)
    (o : StoreOutcome) (m2 : MetaMap) (k2 : Nat)
    (h : storeImportStep env nextId inv meta item rest = .ret (o, m2, k2)) :
    (∃ e, o = .fail e)
    ∨ (rest = [] ∧ o = .ok nextId
        ∧ m2 = metaInsert meta item.source item.target nextId) := by
  unfold storeImportStep at h
  split at h
  · split at h
    · split at h
      · injection h with h1
        injection h1 with ho hm
        injection hm with hm hk
        exact Or.inr ⟨rfl, ho.symm, hm.symm⟩
      · simp at h
    · injection h with h1
      injection h1 with ho hm
      exact Or.inl ⟨_, ho.symm⟩
    · split at h
      · injection h with h1
        injection h1 with ho hm
        exact Or.inl ⟨_, ho.symm⟩
      · split at h
        · injection h with h1
          injection h1 with ho hm
          exact Or.inl ⟨_, ho.symm⟩
        · simp at h
    · split at h
      · injection h with h1
        injection h1 with ho hm
        exact Or.inl ⟨_, ho.symm⟩
      · split at h
        · injection h with h1
          injection h1 with ho hm
          exact Or.inl ⟨_, ho.symm⟩
        · simp at h
  · injection h with h1
    injection h1 with ho hm
    exact Or.inl ⟨_, ho.symm⟩

theorem storeImportStep_recurse_cases (env : StoreEnv) (nextId inv : Nat)
    (meta : MetaMap) (item : StoreItem) (rest : List StoreItem)
    (n2 i2 : Nat) (m2 : MetaMap) (s2 : List StoreItem)
    (h : storeImportStep env nextId inv meta item rest = .recurse n2 i2 m2 s2) :
    (∃ stk, s2 = stk
        ++ ⟨item.source, item.format, item.target, item.attempt + 1⟩ :: rest)
    ∨ s2 = rest := by
  unfold storeImportStep at h
  split at h
  · split at h
    · split at h
      · simp at h
      · injection h with _ _ _ hs
        exact Or.inr hs.symm
    · simp at h
    · split at h
      · simp at h
      · split at h
        · simp at h
        · injection h with _ _ _ hs
          exact Or.inl ⟨[], by rw [← hs]; rfl⟩
    · split at h
      · simp at h
      · split at h
        · simp at h
        · injection h with _ _ _ hs
          exact Or.inl ⟨_, hs.symm⟩
  · simp at h

theorem storeLoop_ok_meta (env : StoreEnv) :
    ∀ (fuel : Nat) (stack : List StoreItem) (S : String) (F : Option String)
      (T : String) (a nextId inv I k : Nat) (meta meta2 : MetaMap),
      storeLoop env fuel nextId inv meta (stack ++ [⟨S, F, T, a⟩])
          = some (.ok I, meta2, k) →
      metaLookup meta2 S T = some I := by
  intro fuel
  induction fuel with
  | zero =>
    intro stack S F T a nextId inv I k meta meta2 h
    simp [storeLoop] at h
  | succ fuel ih =>
    intro stack S F T a nextId inv I k meta meta2 h
    cases stack with
    | nil =>
      simp only [List.nil_append, storeLoop] at h
      split at h
      · rename_i id hml
        split at h
        · split at h
          · rename_i r heq
            obtain ⟨o, m2, k2⟩ := r
            injection h with h1
            injection h1 with ho hm
            injection hm with hm hk
            subst ho hm
            rcases storeImportStep_ret_cases env nextId inv meta _ _ _ _ _ heq with
              ⟨e, he⟩ | ⟨hrest, ho2, hm2⟩
            · exact StoreOutcome.noConfusion he
            · rw [hm2]
              injection ho2 with hI
              rw [hI]
              exact metaLookup_insert meta S T nextId
          · rename_i n2 i2 m2 s2 heq
            rcases storeImportStep_recurse_cases env nextId inv meta _ _ _ _ _ _ heq with
              ⟨stk, hs⟩ | hs
            · subst hs
              exact ih stk S F T (a + 1) n2 i2 I k m2 meta2 h
            · subst hs
              cases fuel <;> simp [storeLoop] at h
        · injection h with h1
          injection h1 with ho hm
          injection hm with hm hk
          subst hm
          injection ho with hI
          rw [← hI]
          exact hml
      · rename_i hml
        split at h
        · rename_i r heq
          obtain ⟨o, m2, k2⟩ := r
          injection h with h1
          injection h1 with ho hm
          injection hm with hm hk
          subst ho hm
          rcases storeImportStep_ret_cases env nextId inv meta _ _ _ _ _ heq with
            ⟨e, he⟩ | ⟨hrest, ho2, hm2⟩
          · exact StoreOutcome.noConfusion he
          · rw [hm2]
            injection ho2 with hI
            rw [hI]
            exact metaLookup_insert meta S T nextId
        · rename_i n2 i2 m2 s2 heq
          rcases storeImportStep_recurse_cases env nextId inv meta _ _ _ _ _ _ heq with
            ⟨stk, hs⟩ | hs
          · subst hs
            exact ih stk S F T (a + 1) n2 i2 I k m2 meta2 h
          · subst hs
            cases fuel <;> simp [storeLoop] at h
    | cons s0 ss =>
      simp only [List.cons_append, storeLoop] at h
      split at h
      · rename_i id hml
        split at h
        · split at h
          · rename_i r heq
            obtain ⟨o, m2, k2⟩ := r
            injection h with h1
            injection h1 with ho hm
            injection hm with hm hk
            subst ho hm
            rcases storeImportStep_ret_cases env nextId inv meta _ _ _ _ _ heq with
              ⟨e, he⟩ | ⟨hrest, ho2, hm2⟩
            · exact StoreOutcome.noConfusion he
            · simp at hrest
          · rename_i n2 i2 m2 s2 heq
            rcases storeImportStep_recurse_cases env nextId inv meta _ _ _ _ _ _ heq with
              ⟨stk, hs⟩ | hs
            · rw [hs] at h
              apply ih (stk ++ ⟨s0.source, s0.format, s0.target, s0.attempt + 1⟩ :: ss)
                S F T a n2 i2 I k m2 meta2
              simpa using h
            · subst hs
              exact ih ss S F T a n2 i2 I k m2 meta2 h
        · split at h
          · rename_i heq
            simp at heq
          · rename_i r0 rs heq
            rw [← heq] at h
            exact ih ss S F T a nextId inv I k meta meta2 h
      · rename_i hml
        split at h
        · rename_i r heq
          obtain ⟨o, m2, k2⟩ := r
          injection h with h1
          injection h1 with ho hm
          injection hm with hm hk
          subst ho hm
          rcases storeImportStep_ret_cases env nextId inv meta _ _ _ _ _ heq with
            ⟨e, he⟩ | ⟨hrest, ho2, hm2⟩
          · exact StoreOutcome.noConfusion he
          · simp at hrest
        · rename_i n2 i2 m2 s2 heq
          rcases storeImportStep_recurse_cases env nextId inv meta _ _ _ _ _ _ heq with
            ⟨stk, hs⟩ | hs
          · rw [hs] at h
            apply ih (stk ++ ⟨s0.source, s0.format, s0.target, s0.attempt + 1⟩ :: ss)
              S F T a n2 i2 I k m2 meta2
            simpa using h
          · subst hs
            exact ih ss S F T a n2 i2 I k m2 meta2 h

theorem storeLoop_sources_exhaust (env : StoreEnv) (S : String) (F : Option String)
    (T : String) (meta : MetaMap) (b : Nat → List String)
    (hmeta : metaLookup meta S T = none)
    (himp : env.hasImporter F T = true)
    (hbeh : ∀ n, env.importer S T n = .requireSources (b n))
    (hjoin : ∀ n, (joinAll env.join S (b n)).isSome = true) :
    ∀ (k a : Nat), a + k = MAX_ITEM_ATTEMPTS → 1 ≤ k →
      ∀ (fuel : Nat), k ≤ fuel → ∀ (nextId inv : Nat),
      storeLoop env fuel nextId inv meta [⟨S, F, T, a⟩]
        = some (.fail .tooManyAttempts, meta, inv + k) := by
  intro k
  induction k with
  | zero => omega
  | succ k ih =>
    intro a hsum hk fuel hfuel nextId inv
    match fuel, hfuel with
    | fuel + 1, _ =>
      simp only [storeLoop, hmeta]
      simp only [storeImportStep, himp, if_true, hbeh (a + 1)]
      by_cases hlast : MAX_ITEM_ATTEMPTS ≤ a + 1
      · have hk0 : k = 0 := by simp only [MAX_ITEM_ATTEMPTS] at *; omega
        subst hk0
        simp [hlast]
      · rw [if_neg hlast]
        obtain ⟨us, hus⟩ := Option.isSome_iff_exists.mp (hjoin (a + 1))
        rw [hus]
        have hk1 : 1 ≤ k := by simp only [MAX_ITEM_ATTEMPTS] at *; omega
        have hrec := ih (a + 1) (by omega) hk1 fuel (by omega) nextId (inv + 1)
        simp only [hrec]
        have harith : inv + 1 + k = inv + (k + 1) := by omega
        rw [harith]

/-! ## Claim theorems -/

/-- Claim C1.  The claim states that every candidate at which the output file
is placed (renamed or deduplicated) by `AssetMeta::new` is reconstructed
exactly by `make_artifact_path` from the recorded `(sha256, prefix, suffix)`.
This fails on the code: when every un-suffixed candidate collides, the output
is placed at the first suffix-loop candidate `"<hex>:0"`, but the recorded
fields are `prefix = 64, suffix = 0`, which `make_artifact_path` renders as
plain `<hex>` — a different path.  This theorem evaluates the embedded
`AssetMeta::new` at such a directory state and exhibits the mismatch. -/
theorem claim_C1 :
    assetMetaNew occupiedShortDir 1 hex64 1
        = some (.ok ⟨64, 0, hex64 ++ ":0"⟩)
    ∧ makeArtifactPath hex64 64 0 = hex64
    ∧ hex64 ≠ hex64 ++ ":0" := by
  refine ⟨rfl, rfl, by decide⟩

/-- Claim C2.  The claim states that hex rendering of any 256-bit hash emits
exactly 64 zero-padded digits and that `parse(format(h)) = h`.  This fails on
the code: `LowerHex` prints each 16-byte half with the unpadded `{:x}` format,
so the all-zero hash renders as the 2-character string `"00"`, and `FromStr`
(which demands 64 characters) rejects it with `NotEnoughDigits`. -/
theorem claim_C2 :
    lowerHex zeroHash = ['0', '0']
    ∧ (lowerHex zeroHash).length ≠ 64
    ∧ fromStr (lowerHex zeroHash) = none := by
  refine ⟨by decide, by decide, by decide⟩

set_option maxRecDepth 8192 in
/-- Claim C3.  The claim states that the host decodes the plugin's
`RequireSources` result buffer back into the same list of strings, every
integer being written and read as a little-endian `u32`.  This fails on the
code: the plugin writes the length of `"a"` as the little-endian bytes
`01 00 00 00`, but the host reads length fields with `u32::from_be_bytes`,
obtains 16777216, and indexes the 1024-byte buffer out of bounds (a panic) —
so the round trip for the one-element list `["a"]` does not yield `["a"]`.
(The write side is little-endian throughout, as the first conjunct shows;
the decode loop additionally never advances its offset past string bytes.) -/
theorem claim_C3 :
    encodeSourcesPayload [[97]] = [1, 0, 0, 0, 1, 0, 0, 0, 97]
    ∧ sourcesLenRequired [[97]] = 9
    ∧ decodeSources (hostBuffer (encodeSourcesPayload [[97]]) RESULT_BUF_LEN_START)
        = none := by
  refine ⟨by decide, by decide, ?_⟩
  decide

/-- Claim C5.  The claim states that distinct `generate()` calls on one
context always return distinct ids.  This fails on the code: `generate` never
assigns `guard.last_timestamp`, which therefore stays 0 forever; two
consecutive calls that both observe the same timestamp `1` each take the
"new millisecond" branch, reset the counter to 1, and return the identical
id `scramble ((1 <<< 22) ||| 1)`. -/
theorem claim_C5 :
    generateTwice 0 1 1
      = some ((4194305 * ID_MUL) % U64, (4194305 * ID_MUL) % U64) := by
  decide

/-- Claim C4.  Idempotence of `store`: if a run returns asset id `I` for the
root (source, target) and the recorded asset is not stale on the second call
(the recorded source modification times are unchanged), then a second run
over the resulting metas returns the same id `I` with zero importer
invocations — the early-exit at lines 263-285 fires on the first iteration. -/
theorem claim_C4 (env : StoreEnv) (fuel1 fuel2 nId1 nId2 inv1 : Nat)
    (meta0 meta1 : MetaMap) (S : String) (F : Option String) (T : String)
    (I k : Nat)
    (h1 : storeLoop env fuel1 nId1 inv1 meta0 [⟨S, F, T, 0⟩]
        = some (.ok I, meta1, k))
    (h2 : env.stale S T = false) (h3 : 1 ≤ fuel2) :
    storeLoop env fuel2 nId2 0 meta1 [⟨S, F, T, 0⟩]
      = some (.ok I, meta1, 0) := by
  have hrec : metaLookup meta1 S T = some I :=
    storeLoop_ok_meta env fuel1 [] S F T 0 nId1 inv1 I k meta0 meta1 h1
  match fuel2, h3 with
  | f + 1, _ =>
    simp only [storeLoop, hrec]
    simp [h2]

/-- A concrete environment whose importer immediately succeeds and whose
assets never go stale. -/
def env0 : StoreEnv :=
  ⟨fun _ u => some u, fun _ _ => true, fun _ _ _ => .ok, fun _ _ => false⟩

/-- Witness for C4: a first `store` run that imports and returns id 5, then
the second run returning the same id 5 with zero importer invocations. -/
theorem claim_C4_witness :
    storeLoop env0 2 5 0 [] [⟨"s", none, "t", 0⟩]
        = some (.ok 5, [(("s", "t"), 5)], 1)
    ∧ storeLoop env0 1 99 0 [(("s", "t"), 5)] [⟨"s", none, "t", 0⟩]
        = some (.ok 5, [(("s", "t"), 5)], 0) :=
  ⟨rfl,
    claim_C4 env0 2 1 5 99 0 [] [(("s", "t"), 5)] "s" none "t" 5 1 rfl rfl
      (by decide)⟩

/-- The same exhaustion for an importer that always requests the same
dependency whose asset already exists (and is fresh): each round of the loop
pushes the dependency item, which pops on the next iteration, and the root
item is retried — two iterations per importer invocation of the root, with
the root's attempt counter rising by one each time. -/
theorem storeLoop_deps_exhaust (env : StoreEnv) (S : String) (F : Option String)
    (T : String) (meta : MetaMap) (d D T2 : String) (J : Nat)
    (hmeta : metaLookup meta S T = none)
    (himp : env.hasImporter F T = true)
    (hbeh : ∀ n, env.importer S T n = .requireDependencies [(d, T2)])
    (hjoin : env.join S d = some D)
    (hdep : metaLookup meta D T2 = some J)
    (hstale : env.stale D T2 = false) :
    ∀ (k a : Nat), a + k = MAX_ITEM_ATTEMPTS → 1 ≤ k →
      ∀ (fuel : Nat), 2 * k - 1 ≤ fuel → ∀ (nextId inv : Nat),
      storeLoop env fuel nextId inv meta [⟨S, F, T, a⟩]
        = some (.fail .tooManyAttempts, meta, inv + k) := by
  intro k
  induction k with
  | zero => omega
  | succ k ih =>
    intro a hsum hk fuel hfuel nextId inv
    match fuel, hfuel with
    | fuel + 1, _ =>
      simp only [storeLoop, hmeta]
      simp only [storeImportStep, himp, if_true, hbeh (a + 1)]
      by_cases hlast : MAX_ITEM_ATTEMPTS ≤ a + 1
      · have hk0 : k = 0 := by simp only [MAX_ITEM_ATTEMPTS] at *; omega
        subst hk0
        simp [hlast]
      · rw [if_neg hlast]
        simp only [joinAll, hjoin, List.map_cons, List.map_nil, List.zip_cons_cons,
          List.zip_nil_right, List.reverse_cons, List.reverse_nil, List.nil_append,
          List.cons_append]
        have hk1 : 1 ≤ k := by simp only [MAX_ITEM_ATTEMPTS] at *; omega
        match fuel, (by simp only [MAX_ITEM_ATTEMPTS] at *; omega : 1 ≤ fuel) with
        | fuel + 1, _ =>
          simp only [storeLoop, hdep, hstale, if_false, Bool.false_eq_true]
          have hrec := ih (a + 1) (by omega) hk1 fuel (by omega) nextId (inv + 1)
          simp only [hrec]
          have harith : inv + 1 + k = inv + (k + 1) := by omega
          rw [harith]

/-- Claim C6.  An item whose importer never returns `Success` exhausts the
attempt bound: `store` fails with the "Too many attempts" error after exactly
`MAX_ITEM_ATTEMPTS` (= 1024) iterations of that item, the per-item attempt
counter rising by one per iteration and the importer being invoked exactly
1024 times.  First conjunct: an importer answering `RequireSources` on every
invocation (with any joinable lists).  Second conjunct: an importer always
requesting the same already-imported dependency (the spec's "always requests
the same dependency" scenario), where each round also pops the pushed
dependency item. -/
theorem claim_C6 :
    (∀ (env : StoreEnv) (S : String) (F : Option String) (T : String)
        (meta : MetaMap) (b : Nat → List String) (fuel nextId inv : Nat),
        metaLookup meta S T = none →
        env.hasImporter F T = true →
        (∀ n, env.importer S T n = .requireSources (b n)) →
        (∀ n, (joinAll env.join S (b n)).isSome = true) →
        MAX_ITEM_ATTEMPTS ≤ fuel →
        storeLoop env fuel nextId inv meta [⟨S, F, T, 0⟩]
          = some (.fail .tooManyAttempts, meta, inv + MAX_ITEM_ATTEMPTS))
    ∧ (∀ (env : StoreEnv) (S : String) (F : Option String) (T : String)
        (meta : MetaMap) (d D T2 : String) (J : Nat) (fuel nextId inv : Nat),
        metaLookup meta S T = none →
        env.hasImporter F T = true →
        (∀ n, env.importer S T n = .requireDependencies [(d, T2)]) →
        env.join S d = some D →
        metaLookup meta D T2 = some J →
        env.stale D T2 = false →
        2 * MAX_ITEM_ATTEMPTS - 1 ≤ fuel →
        storeLoop env fuel nextId inv meta [⟨S, F, T, 0⟩]
          = some (.fail .tooManyAttempts, meta, inv + MAX_ITEM_ATTEMPTS)) := by
  constructor
  · intro env S F T meta b fuel nextId inv hmeta himp hbeh hjoin hfuel
    exact storeLoop_sources_exhaust env S F T meta b hmeta himp hbeh hjoin
      MAX_ITEM_ATTEMPTS 0 (by omega) (by norm_num [MAX_ITEM_ATTEMPTS])
      fuel hfuel nextId inv
  · intro env S F T meta d D T2 J fuel nextId inv hmeta himp hbeh hjoin hdep hstale hfuel
    exact storeLoop_deps_exhaust env S F T meta d D T2 J hmeta himp hbeh hjoin
      hdep hstale MAX_ITEM_ATTEMPTS 0 (by omega) (by norm_num [MAX_ITEM_ATTEMPTS])
      fuel hfuel nextId inv

/-- A concrete environment whose importer always requests the same source. -/
def env6 : StoreEnv :=
  ⟨fun _ u => some u, fun _ _ => true, fun _ _ _ => .requireSources ["dep"],
    fun _ _ => false⟩

/-- A concrete environment whose importer always requests the same
dependency `("dep", "t2")`. -/
def env6d : StoreEnv :=
  ⟨fun _ u => some u, fun _ _ => true,
    fun _ _ _ => .requireDependencies [("dep", "t2")], fun _ _ => false⟩

/-- Witness for C6: with `env6` a fresh import fails with the attempt bound
after exactly 1024 importer invocations; with `env6d` and the dependency
already recorded, likewise. -/
theorem claim_C6_witness :
    storeLoop env6 1024 0 0 [] [⟨"s", none, "t", 0⟩]
        = some (.fail .tooManyAttempts, [], 0 + MAX_ITEM_ATTEMPTS)
    ∧ storeLoop env6d 2047 0 0 [(("dep", "t2"), 7)] [⟨"s", none, "t", 0⟩]
        = some (.fail .tooManyAttempts, [(("dep", "t2"), 7)],
            0 + MAX_ITEM_ATTEMPTS) :=
  ⟨claim_C6.1 env6 "s" none "t" [] (fun _ => ["dep"]) 1024 0 0 rfl rfl
      (fun _ => rfl) (fun _ => rfl) (by decide),
    claim_C6.2 env6d "s" none "t" [(("dep", "t2"), 7)] "dep" "dep" "t2" 7
      2047 0 0 rfl rfl (fun _ => rfl) rfl rfl rfl (by decide)⟩

/-- Claim C7.  First conjunct: `with_path_candidates` visits exactly the
candidate sequence stated by the spec — prefix lengths
`PREFIX_STARTING_LEN, …, hex.len()` first (suffix 0), and only after every
prefix length is exhausted the suffixed names `"<hex>:0", "<hex>:1", …`.
Second conjunct: given two distinct outputs whose first 8 hex digits collide,
the first occupies `h1[..8]` and the second occupies `h2[..9]`, never a
suffixed name. -/
theorem claim_C7 :
    (∀ (T : Type) (f : Nat → Nat → String → FRes T) (hex : String) (fuel : Nat),
        withPathCandidates f hex fuel
          = runCandidates f hex 0 ((hex.length + 1 - PREFIX_STARTING_LEN) + fuel))
    ∧ (∀ (h1 h2 : String) (c1 c2 : Nat) (fuel1 fuel2 : Nat),
        8 ≤ h1.length → 9 ≤ h2.length →
        h2.take 8 = h1.take 8 → h2.take 9 ≠ h1.take 8 → c1 ≠ c2 →
        assetMetaNew emptyDir c1 h1 fuel1 = some (.ok ⟨8, 0, h1.take 8⟩)
        ∧ assetMetaNew (singleDir (h1.take 8) (.file c1)) c2 h2 fuel2
            = some (.ok ⟨9, 0, h2.take 9⟩)) := by
  constructor
  · intro T f hex fuel
    exact wpc_eq_run f hex fuel
  · intro h1 h2 c1 c2 fuel1 fuel2 hl1 hl2 hcoll hne hc
    exact second_output_takes_9 h1 h2 c1 c2 hl1 hl2 hcoll hne hc fuel1 fuel2

/-- A second 64-digit hex string agreeing with `hex64` on its first 8 digits
and nowhere after. -/
def hex64b : String :=
  "0123456700000000000000000000000000000000000000000000000000000000"

/-- Witness for C7: the candidate-order refinement applied at a concrete
hex string and visitor, and the two-output collision scenario at two concrete
64-digit hashes sharing their first 8 digits. -/
theorem claim_C7_witness :
    (withPathCandidates (fun _ _ _ => (FRes.collision : FRes Unit)) hex64 1
        = runCandidates (fun _ _ _ => (FRes.collision : FRes Unit)) hex64 0
            ((hex64.length + 1 - PREFIX_STARTING_LEN) + 1))
    ∧ (assetMetaNew emptyDir 1 hex64 0 = some (.ok ⟨8, 0, hex64.take 8⟩)
        ∧ assetMetaNew (singleDir (hex64.take 8) (.file 1)) 2 hex64b 0
            = some (.ok ⟨9, 0, hex64b.take 9⟩)) :=
  ⟨claim_C7.1 Unit (fun _ _ _ => FRes.collision) hex64 1,
    claim_C7.2 hex64 hex64b 1 2 0 0 (by decide) (by decide) (by decide)
      (by decide) (by decide)⟩

/-- Claim C8.  `generate()` fails fatally only when now is before the epoch:
modelling each loop iteration's clock reading as a natural number (defined
exactly when now ≥ epoch), a call made from any reachable generator state
never panics — the "Time goes backwards" branch needs
`last_timestamp > timestamp`, and `last_timestamp` is 0 in every reachable
state, while the zero-id `expect` can never fire — and it returns an id as
soon as an iteration is not throttled (throttling requires timestamp 0 with a
saturated counter). -/
theorem claim_C8 :
    ∀ (node : Nat) (st : ContextSyncData) (ts : List Nat),
      node ≤ 0x3FF → Reachable st →
      generateCall node st ts ≠ some .panic
      ∧ ((∃ t ∈ ts, t ≠ 0 ∨ st.counter ≠ 0xFFF) →
          ∃ id st2, generateCall node st ts = some (.okR id st2)) := by
  intro node st ts hnode hr
  exact ⟨generateCall_no_panic node hnode ts st hr,
    fun hex => generateCall_returns node hnode ts st hr hex⟩

/-- Witness for C8: a call on a fresh generator observing timestamp 1 does
not panic and returns an id. -/
theorem claim_C8_witness :
    generateCall 0 ⟨0, 0⟩ [1] ≠ some CallRes.panic
    ∧ ∃ id st2, generateCall 0 ⟨0, 0⟩ [1] = some (.okR id st2) :=
  ⟨(claim_C8 0 ⟨0, 0⟩ [1] (by decide) Reachable.init).1,
    (claim_C8 0 ⟨0, 0⟩ [1] (by decide) Reachable.init).2
      ⟨1, by decide, Or.inl (by decide)⟩⟩

/-- Claim C10.  During buffer-size negotiation, a `BUFFER_TOO_SMALL` reply
whose required size exceeds `ANY_BUF_LEN_LIMIT` (65536) makes both
`ImporterFFI::import` and `SourcesFFI::get` abort after that single callee
invocation with an error carrying the limit and the required size — no
reallocation, no retry; a required size within the limit is retried with the
enlarged buffer (a second invocation) and succeeds. -/
theorem claim_C10 :
    (∀ (req : Nat) (code : Int) (fuel : Nat),
        ANY_BUF_LEN_LIMIT < req → 1 ≤ fuel →
        importerNegotiation (sizedCallee req code) RESULT_BUF_LEN_START 0 fuel
            = some (.error (.tooBig ANY_BUF_LEN_LIMIT req), 1)
        ∧ sourcesGetNegotiation (sizedCallee req code) PATH_BUF_LEN_START 0 fuel
            = some (.error (.tooBig ANY_BUF_LEN_LIMIT req), 1))
    ∧ (∀ (req : Nat) (code : Int) (fuel : Nat),
        req ≤ ANY_BUF_LEN_LIMIT → 2 ≤ fuel → code ≠ -3 →
        importerNegotiation (sizedCallee req code) RESULT_BUF_LEN_START 0 fuel
            = some (.ok (code, req), if RESULT_BUF_LEN_START < req then 2 else 1)
        ∧ sourcesGetNegotiation (sizedCallee req code) PATH_BUF_LEN_START 0 fuel
            = some (.ok (code, req), if PATH_BUF_LEN_START < req then 2 else 1)) := by
  constructor
  · intro req code fuel hreq hfuel
    cases fuel with
    | zero => omega
    | succ f =>
      have h1 : RESULT_BUF_LEN_START < req := by
        simp only [RESULT_BUF_LEN_START, ANY_BUF_LEN_LIMIT] at *
        omega
      have h2 : PATH_BUF_LEN_START < req := by
        simp only [PATH_BUF_LEN_START, ANY_BUF_LEN_LIMIT] at *
        omega
      constructor
      · simp [importerNegotiation, sizedCallee, h1, hreq]
      · simp [sourcesGetNegotiation, sizedCallee, h2, hreq]
  · intro req code fuel hreq hfuel hcode
    match fuel, hfuel with
    | f + 2, _ =>
      have hnot : ¬ (req > ANY_BUF_LEN_LIMIT) := by omega
      have hnr : ¬ (req < req) := by omega
      constructor
      · by_cases h1024 : RESULT_BUF_LEN_START < req
        · rw [if_pos h1024]
          simp [importerNegotiation, sizedCallee, h1024, hnot, hnr, hcode]
        · rw [if_neg h1024]
          simp [importerNegotiation, sizedCallee, h1024, hcode]
      · by_cases h1024 : PATH_BUF_LEN_START < req
        · rw [if_pos h1024]
          simp [sourcesGetNegotiation, sizedCallee, h1024, hnot, hnr, hcode]
        · rw [if_neg h1024]
          simp [sourcesGetNegotiation, sizedCallee, h1024, hcode]

/-- Witness for C10: a required size of 70000 bytes aborts both loops after
one invocation; a required size of 2000 bytes is retried and succeeds with
return code 0 after two. -/
theorem claim_C10_witness :
    (importerNegotiation (sizedCallee 70000 0) RESULT_BUF_LEN_START 0 3
        = some (.error (.tooBig ANY_BUF_LEN_LIMIT 70000), 1)
      ∧ sourcesGetNegotiation (sizedCallee 70000 0) PATH_BUF_LEN_START 0 3
        = some (.error (.tooBig ANY_BUF_LEN_LIMIT 70000), 1))
    ∧ (importerNegotiation (sizedCallee 2000 0) RESULT_BUF_LEN_START 0 3
        = some (.ok (0, 2000), if RESULT_BUF_LEN_START < 2000 then 2 else 1)
      ∧ sourcesGetNegotiation (sizedCallee 2000 0) PATH_BUF_LEN_START 0 3
        = some (.ok (0, 2000), if PATH_BUF_LEN_START < 2000 then 2 else 1)) :=
  ⟨claim_C10.1 70000 0 3 (by decide) (by decide),
    claim_C10.2 2000 0 3 (by decide) (by decide) (by decide)⟩

/-- Claim C9.  For every context state whose fields satisfy the bounds
established by `AssetIdContext::new` and maintained by `generate`
(`node ≤ 0x3FF` after masking, `counter ≤ 0xFFF`), the zero-id `expect`
branch is unreachable — the assembled id has a non-zero counter field and
`ID_MUL` is odd, so the wrapping multiplication is a bijection on 64-bit
values — and every id `generate()` returns is non-zero. -/
theorem claim_C9 :
    ∀ (node : Nat) (st : ContextSyncData) (t : Nat),
      node ≤ 0x3FF → st.counter ≤ 0xFFF →
      generateStep node st t ≠ .panicZero
      ∧ (∀ (id : Nat) (st2 : ContextSyncData),
          generateStep node st t = .ok id st2 → id ≠ 0) := by
  intro node st t hnode hc
  exact ⟨generateStep_no_zero node st t hnode hc,
    fun id st2 h => generateStep_ok_id_ne_zero node st t id st2 h⟩

/-- Witness for C9 at a concrete input: the fresh state, node 0,
timestamp 0; the step succeeds and returns the non-zero id `ID_MUL`. -/
theorem claim_C9_witness :
    generateStep 0 ⟨0, 0⟩ 0 ≠ .panicZero ∧ (ID_MUL : Nat) ≠ 0 :=
  ⟨(claim_C9 0 ⟨0, 0⟩ 0 (by decide) (by decide)).1,
    (claim_C9 0 ⟨0, 0⟩ 0 (by decide) (by decide)).2 ID_MUL ⟨1, 0⟩ (by decide)⟩

end Treasury
